import Mathlib

set_option autoImplicit false

/-!
Shallow embedding of the in-memory alert provider
(`provider/mem/mem.go` of the alertmanager repository).

Times (`time.Time`) are modelled as integers; `t1.Before(t2)` is `t1 < t2`
and `t1.After(t2)` is `t2 < t1`.  The Go map `map[model.Fingerprint]*types.Alert`
is modelled as an association list with fingerprint keys; Go map iteration
order is not observable in any property proved here.  The external merge
capability `types.Alert.Merge` is an opaque parameter.  Channel sends that
race a `select` against a closed `done` channel are modelled with an explicit
choice oracle: when both the buffered send and the `done` receive are ready,
Go picks one of the ready cases nondeterministically, and the oracle fixes
that pick.  `Marker.Delete` calls and `close(channel)` events are recorded in
logs inside the state so that their number and order are observable.
-/

namespace Mem

/-- Model of `time.Time` as an integer timestamp. -/
abbrev Time := Int

/-- Model of `types.Alert`: a fingerprint (derived from the label set, kept
opaque here), the activity interval `StartsAt`/`EndsAt`, and an opaque
payload standing for all remaining fields, so that distinct alerts with the
same interval can be told apart. -/
structure Alert where
  fp : Nat
  startsAt : Time
  endsAt : Time
  payload : Nat
deriving DecidableEq, Repr

/-- Model of `alert.Fingerprint()`. -/
def Alert.Fingerprint (a : Alert) : Nat := a.fp

/-- The one error value this file can produce: `provider.ErrNotFound`. -/
inductive GoErr where
  | errNotFound
deriving DecidableEq, Repr

/-- Model of `listeningAlerts`: the outbound buffered channel (contents plus
its capacity) and the `done` channel, where `done = true` means the
subscriber has closed its `done` channel (cancellation has been signalled). -/
structure Listener where
  queue : List Alert
  cap : Nat
  done : Bool
deriving DecidableEq, Repr

/-- Model of the `Alerts` provider state.  `markerDeleted` is the log of
`marker.Delete(fp)` calls, `closedQueues` the log of `close(l.alerts)`
events (listener id and queue contents at close time), `next` the next
listener id, and `stopGCClosed` whether `close(a.stopGC)` has happened. -/
structure Alerts where
  alerts : List (Nat × Alert)
  markerDeleted : List Nat
  listeners : List (Nat × Listener)
  closedQueues : List (Nat × List Alert)
  next : Nat
  stopGCClosed : Bool
deriving DecidableEq, Repr

/-- Go map lookup `m[fp]` on the association-list model. -/
def lookupFp {α : Type} (fp : Nat) : List (Nat × α) → Option α
  | [] => none
  | p :: rest => if p.1 = fp then some p.2 else lookupFp fp rest

/-- Go map update `m[fp] = a` on the association-list model. -/
def insertFp {α : Type} (fp : Nat) (a : α) : List (Nat × α) → List (Nat × α)
  | [] => [(fp, a)]
  | p :: rest => if p.1 = fp then (fp, a) :: rest else p :: insertFp fp a rest

/-- The overlap test of `Put` (mem.go lines 188-189):
`(alert.EndsAt.After(old.StartsAt) && alert.EndsAt.Before(old.EndsAt)) ||
 (alert.StartsAt.After(old.StartsAt) && alert.StartsAt.Before(old.EndsAt))`. -/
def overlaps (old alert : Alert) : Bool :=
  (decide (old.startsAt < alert.endsAt) && decide (alert.endsAt < old.endsAt)) ||
  (decide (old.startsAt < alert.startsAt) && decide (alert.startsAt < old.endsAt))

/-- One delivery attempt of the broadcast loop in `Put`:
`select { case l.alerts <- alert: case <-l.done: }`.
A buffered send is ready when the queue has free capacity; the `done`
receive is ready when the subscriber has closed `done`.  When both are
ready Go picks a ready case nondeterministically (`choice`); when neither
is ready the select blocks, modelled as `none`. -/
def selectSend (choice : Bool) (alert : Alert) (l : Listener) : Option Listener :=
  if l.queue.length < l.cap then
    if l.done then
      if choice then some { l with queue := l.queue ++ [alert] } else some l
    else some { l with queue := l.queue ++ [alert] }
  else if l.done then some l
  else none

/-- The broadcast loop of `Put` over all registered listeners, with the
select choice given per listener id.  `none` means some delivery blocked
(no free capacity and no cancellation), i.e. `Put` does not return. -/
def broadcast (choice : Nat → Bool) (alert : Alert) :
    List (Nat × Listener) → Option (List (Nat × Listener))
  | [] => some []
  | p :: rest =>
    match selectSend (choice p.1) alert p.2 with
    | none => none
    | some l2 =>
      match broadcast choice alert rest with
      | none => none
      | some rest2 => some ((p.1, l2) :: rest2)

/-- The conflict-resolution step of `Put` (mem.go lines 186-195): given the
existing stored alert for the fingerprint (if any) and the incoming alert,
the value that gets stored and broadcast — the merge result when the
overlap test passes, the incoming alert otherwise. -/
def resolve (merge : Alert → Alert → Alert) (stored : Option Alert)
    (incoming : Alert) : Alert :=
  match stored with
  | some old => if overlaps old incoming then merge old incoming else incoming
  | none => incoming

/-- The body of `Put` for a single alert of the batch (mem.go lines 184-203):
look up an existing alert with the same fingerprint, merge when the overlap
test passes, store the result, broadcast it to every listener. -/
def putOne (merge : Alert → Alert → Alert) (choice : Nat → Bool)
    (s : Alerts) (incoming : Alert) : Option Alerts :=
  match broadcast choice
      (resolve merge (lookupFp incoming.Fingerprint s.alerts) incoming)
      s.listeners with
  | none => none
  | some ls =>
    some { s with
      alerts := insertFp incoming.Fingerprint
        (resolve merge (lookupFp incoming.Fingerprint s.alerts) incoming) s.alerts,
      listeners := ls }

/-- The batch loop of `Put`, in sequence order. -/
def putList (merge : Alert → Alert → Alert) (choice : Nat → Bool)
    (s : Alerts) : List Alert → Option Alerts
  | [] => some s
  | a :: rest =>
    match putOne merge choice s a with
    | none => none
    | some s2 => putList merge choice s2 rest

/-- `Put(alerts ...*types.Alert) error`: processes the batch and returns
`nil` (mem.go line 205).  `none` means `Put` never returns because a
broadcast send blocked forever. -/
def Put (merge : Alert → Alert → Alert) (choice : Nat → Bool)
    (s : Alerts) (alerts : List Alert) : Option (Alerts × Option GoErr) :=
  match putList merge choice s alerts with
  | none => none
  | some s2 => some (s2, none)

/-- `Get(fp) (*types.Alert, error)`: point lookup, `provider.ErrNotFound`
when absent (mem.go lines 168-177). -/
def Get (s : Alerts) (fp : Nat) : Except GoErr Alert :=
  match lookupFp fp s.alerts with
  | none => Except.error GoErr.errNotFound
  | some alert => Except.ok alert

/-- The expiry test of the GC sweep: `alert.EndsAt.Before(now)`. -/
def expired (now : Time) (a : Alert) : Bool := decide (a.endsAt < now)

/-- One sweep of `runGC` (mem.go lines 66-87): every stored alert whose
`EndsAt` is before `now` is deleted from the store and reported to the
marker; every listener whose `done` channel is closed is removed from the
registry and its queue closed. -/
def gcSweep (now : Time) (s : Alerts) : Alerts :=
  { s with
    alerts := s.alerts.filter (fun p => !expired now p.2),
    markerDeleted :=
      s.markerDeleted ++ (s.alerts.filter (fun p => expired now p.2)).map Prod.fst,
    listeners := s.listeners.filter (fun p => !p.2.done),
    closedQueues :=
      s.closedQueues ++
        (s.listeners.filter (fun p => p.2.done)).map (fun p => (p.1, p.2.queue)) }

/-- One iteration of the `runGC` loop: when `stopGC` is closed the loop
returns (`none`), otherwise it performs a sweep after the GC interval. -/
def gcStep (now : Time) (s : Alerts) : Option Alerts :=
  if s.stopGCClosed then none else some (gcSweep now s)

/-- Outcome of `Close()`: either a normal return carrying the error value,
or a runtime panic (Go's `close` on an already-closed channel panics). -/
inductive CloseOutcome where
  | ok (s : Alerts) (err : Option GoErr)
  | panicked
deriving DecidableEq, Repr

/-- `Close() error` (mem.go lines 93-96): `close(a.stopGC); return nil`.
Closing `stopGC` a second time is a Go runtime panic. -/
def Close (s : Alerts) : CloseOutcome :=
  if s.stopGCClosed then CloseOutcome.panicked
  else CloseOutcome.ok { s with stopGCClosed := true } none

/-- `func max(a, b int) int` (mem.go lines 98-103). -/
def max (a b : Nat) : Nat := if a > b then a else b

/-- `alertChannelLength = 200`. -/
def alertChannelLength : Nat := 200

/-- `getPending()` (mem.go lines 154-165): snapshot of all stored alert
values, together with a `nil` error. -/
def getPending (s : Alerts) : List Alert × Option GoErr :=
  (s.alerts.map Prod.snd, none)

/-- Model of `provider.NewAlertIterator(ch, done, err)`: the sequence the
iterator will yield, the channel capacity, the done flag, and the startup
error. -/
structure AlertIterator where
  ch : List Alert
  cap : Nat
  done : Bool
  err : Option GoErr
deriving DecidableEq, Repr

/-- `Subscribe()` (mem.go lines 108-127): snapshot the pending alerts,
allocate a channel of capacity `max(len(alerts), alertChannelLength)`,
preload the snapshot, register a listener under the next id, and return
the iterator.  Returns the new state, the id of the new listener, and the
iterator. -/
def Subscribe (s : Alerts) : Alerts × Nat × AlertIterator :=
  let pending := getPending s
  let cap := max pending.1.length alertChannelLength
  let i := s.next
  ({ s with
      next := s.next + 1,
      listeners := s.listeners ++ [(i, { queue := pending.1, cap := cap, done := false })] },
   i,
   { ch := pending.1, cap := cap, done := false, err := pending.2 })

/-- `GetPending()` (mem.go lines 131-152): snapshot the pending alerts and
deliver them through an independent one-shot channel of capacity
`alertChannelLength`; the iterator is built with the snapshot error. -/
def GetPending (s : Alerts) : AlertIterator :=
  let pending := getPending s
  { ch := pending.1, cap := alertChannelLength, done := false, err := pending.2 }

/-! Concrete states and alerts used by the witness theorems. -/

/-- Constant merge function used by the witnesses. -/
def mergeW : Alert → Alert → Alert :=
  fun a b => { b with payload := a.payload + b.payload }

/-- Choice oracle that always picks the send case of the select. -/
def choiceT : Nat → Bool := fun _ => true

/-- Sample alert held by the witness store. -/
def oldW : Alert := { fp := 1, startsAt := 0, endsAt := 10, payload := 0 }

/-- Witness store holding `oldW` under fingerprint 1. -/
def sW : Alerts :=
  { alerts := [(1, oldW)], markerDeleted := [], listeners := [],
    closedQueues := [], next := 0, stopGCClosed := false }

/-- Incoming alert whose interval falls strictly inside `oldW`'s. -/
def alW : Alert := { fp := 1, startsAt := 5, endsAt := 7, payload := 1 }

/-- Witness result state for `putOne mergeW choiceT sW alW`. -/
def s2W : Alerts := { sW with alerts := insertFp 1 (mergeW oldW alW) sW.alerts }

/-- Incoming alert whose interval strictly contains `oldW`'s interval. -/
def alBig : Alert := { fp := 1, startsAt := -5, endsAt := 20, payload := 2 }

/-- Witness result state for `putOne mergeW choiceT sW alBig`. -/
def s2Big : Alerts := { sW with alerts := insertFp 1 alBig sW.alerts }

/-- Empty witness store. -/
def sE : Alerts :=
  { alerts := [], markerDeleted := [], listeners := [],
    closedQueues := [], next := 0, stopGCClosed := false }

/-- Witness result of `Put mergeW choiceT sE [alW]`. -/
def s3E : Alerts := { sE with alerts := [(1, alW)] }

/-- Expired witness alert (its interval ends before sweep time 5). -/
def aExp : Alert := { fp := 1, startsAt := 0, endsAt := 3, payload := 0 }

/-- Live witness alert (its interval ends after sweep time 5). -/
def aLive : Alert := { fp := 2, startsAt := 0, endsAt := 10, payload := 0 }

/-- Witness store swept by the GC witness: one expired, one live alert. -/
def sGC : Alerts :=
  { alerts := [(1, aExp), (2, aLive)], markerDeleted := [], listeners := [],
    closedQueues := [], next := 0, stopGCClosed := false }

/-- A listener whose subscriber has already closed its `done` channel. -/
def lDone : Listener := { queue := [], cap := 1, done := true }

/-- Witness store with the single cancelled listener `lDone`. -/
def sL : Alerts :=
  { alerts := [], markerDeleted := [], listeners := [(0, lDone)],
    closedQueues := [], next := 1, stopGCClosed := false }

/-- Witness result of `putOne mergeW choiceT (gcSweep 0 sL) alW`. -/
def sLPut : Alerts :=
  { alerts := [(1, alW)], markerDeleted := [], listeners := [],
    closedQueues := [(0, [])], next := 1, stopGCClosed := false }

/-! Helper lemmas about the association-list store and the broadcast loop. -/

theorem lookupFp_insertFp_self {α : Type} (fp : Nat) (a : α) (m : List (Nat × α)) :
    lookupFp fp (insertFp fp a m) = some a := by
  induction m with
  | nil => simp [insertFp, lookupFp]
  | cons p rest ih =>
    by_cases h : p.1 = fp
    · simp [insertFp, lookupFp, h]
    · simp [insertFp, lookupFp, h, ih]

theorem lookupFp_eq_none {α : Type} (fp : Nat) (m : List (Nat × α)) :
    lookupFp fp m = none ↔ fp ∉ m.map Prod.fst := by
  induction m with
  | nil => simp [lookupFp]
  | cons p rest ih =>
    by_cases h : p.1 = fp
    · simp [lookupFp, h]
    · simp [lookupFp, h, ih, Ne.symm h]

theorem lookupFp_of_mem_nodup {α : Type} (i : Nat) (l : α) (m : List (Nat × α))
    (hmem : (i, l) ∈ m) (hnodup : (m.map Prod.fst).Nodup) :
    lookupFp i m = some l := by
  induction m with
  | nil => cases hmem
  | cons p rest ih =>
    have hhead : p.1 ∉ rest.map Prod.fst :=
      (List.nodup_cons.mp (by simpa using hnodup)).1
    have htail : (rest.map Prod.fst).Nodup :=
      (List.nodup_cons.mp (by simpa using hnodup)).2
    rcases List.mem_cons.mp hmem with heq | hmem2
    · rw [← heq]; simp [lookupFp]
    · have hkey : p.1 ≠ i := by
        intro h
        apply hhead
        rw [h]
        exact List.mem_map.mpr ⟨(i, l), hmem2, rfl⟩
      simp only [lookupFp, hkey, if_false]
      exact ih hmem2 htail

theorem lookupFp_filter {α : Type} (q : α → Bool) (fp : Nat) (m : List (Nat × α))
    (hnodup : (m.map Prod.fst).Nodup) :
    lookupFp fp (m.filter (fun p => q p.2)) =
      (match lookupFp fp m with
       | some a => if q a then some a else none
       | none => none) := by
  induction m with
  | nil => simp [lookupFp]
  | cons p rest ih =>
    have hhead : p.1 ∉ rest.map Prod.fst :=
      (List.nodup_cons.mp (by simpa using hnodup)).1
    have htail : (rest.map Prod.fst).Nodup :=
      (List.nodup_cons.mp (by simpa using hnodup)).2
    by_cases h : p.1 = fp
    · subst h
      rcases hq : q p.2 with _ | _
      · rw [List.filter_cons]
        simp only [hq, Bool.false_eq_true, if_false]
        have hl : lookupFp p.1 (rest.filter (fun x => q x.2)) = none := by
          rw [lookupFp_eq_none]
          intro hin
          apply hhead
          rcases List.mem_map.mp hin with ⟨x, hx, hfst⟩
          exact List.mem_map.mpr ⟨x, (List.mem_filter.mp hx).1, hfst⟩
        rw [hl]
        simp [lookupFp, hq]
      · rw [List.filter_cons]
        simp [lookupFp, hq]
    · rw [List.filter_cons]
      rcases hq : q p.2 with _ | _
      · simp only [hq, Bool.false_eq_true, if_false]
        rw [ih htail]
        simp [lookupFp, h]
      · simp only [hq, if_true]
        simp only [lookupFp, h, if_false]
        exact ih htail

theorem count_filter_keys {α : Type} (q : α → Bool) (fp : Nat) (m : List (Nat × α))
    (hnodup : (m.map Prod.fst).Nodup) :
    ((m.filter (fun p => q p.2)).map Prod.fst).count fp =
      (match lookupFp fp m with
       | some a => if q a then 1 else 0
       | none => 0) := by
  induction m with
  | nil => simp [lookupFp]
  | cons p rest ih =>
    have hhead : p.1 ∉ rest.map Prod.fst :=
      (List.nodup_cons.mp (by simpa using hnodup)).1
    have htail : (rest.map Prod.fst).Nodup :=
      (List.nodup_cons.mp (by simpa using hnodup)).2
    have hzero : ((rest.filter (fun x => q x.2)).map Prod.fst).count p.1 = 0 := by
      rw [List.count_eq_zero]
      intro hin
      apply hhead
      rcases List.mem_map.mp hin with ⟨x, hx, hfst⟩
      exact List.mem_map.mpr ⟨x, (List.mem_filter.mp hx).1, hfst⟩
    by_cases h : p.1 = fp
    · subst h
      rcases hq : q p.2 with _ | _
      · rw [List.filter_cons]
        simp only [hq, Bool.false_eq_true, if_false]
        rw [hzero]
        simp [lookupFp, hq]
      · rw [List.filter_cons]
        simp only [hq, if_true, List.map_cons, List.count_cons]
        rw [hzero]
        simp [lookupFp, hq]
    · rcases hq : q p.2 with _ | _
      · rw [List.filter_cons]
        simp only [hq, Bool.false_eq_true, if_false]
        rw [ih htail]
        simp [lookupFp, h]
      · rw [List.filter_cons]
        simp only [hq, if_true, List.map_cons, List.count_cons]
        rw [ih htail]
        simp [lookupFp, h]

theorem overlaps_iff (old al : Alert) :
    overlaps old al = true ↔
      ((old.startsAt < al.endsAt ∧ al.endsAt < old.endsAt) ∨
       (old.startsAt < al.startsAt ∧ al.startsAt < old.endsAt)) := by
  simp [overlaps]

theorem putOne_alerts (merge : Alert → Alert → Alert) (choice : Nat → Bool)
    (s s2 : Alerts) (al : Alert) (hput : putOne merge choice s al = some s2) :
    s2.alerts =
      insertFp al.Fingerprint
        (resolve merge (lookupFp al.Fingerprint s.alerts) al) s.alerts := by
  unfold putOne at hput
  rcases hbc : broadcast choice
      (resolve merge (lookupFp al.Fingerprint s.alerts) al) s.listeners with _ | ls
  · rw [hbc] at hput; exact absurd hput (by simp)
  · rw [hbc] at hput
    simp only [Option.some.injEq] at hput
    rw [← hput]

theorem broadcast_keys (choice : Nat → Bool) (al : Alert) :
    ∀ (L L2 : List (Nat × Listener)), broadcast choice al L = some L2 →
      L2.map Prod.fst = L.map Prod.fst := by
  intro L
  induction L with
  | nil =>
    intro L2 h
    simp only [broadcast, Option.some.injEq] at h
    rw [← h]
  | cons p rest ih =>
    intro L2 h
    unfold broadcast at h
    rcases hs : selectSend (choice p.1) al p.2 with _ | l2 <;> rw [hs] at h
    · exact absurd h (by simp)
    · rcases hb : broadcast choice al rest with _ | rest2 <;> rw [hb] at h
      · exact absurd h (by simp)
      · simp only [Option.some.injEq] at h
        rw [← h]
        simp [ih rest2 hb]

theorem putOne_listener_keys (merge : Alert → Alert → Alert) (choice : Nat → Bool)
    (s s2 : Alerts) (al : Alert) (hput : putOne merge choice s al = some s2) :
    s2.listeners.map Prod.fst = s.listeners.map Prod.fst := by
  unfold putOne at hput
  rcases hbc : broadcast choice
      (resolve merge (lookupFp al.Fingerprint s.alerts) al) s.listeners with _ | ls
  · rw [hbc] at hput; exact absurd hput (by simp)
  · rw [hbc] at hput
    simp only [Option.some.injEq] at hput
    rw [← hput]
    exact broadcast_keys choice _ s.listeners ls hbc

/-! The claims. -/

/-- Claim C1: when the store already holds an alert with the incoming
alert's fingerprint, `Put` stores `Merge(old, incoming)` exactly when the
incoming alert's `EndsAt` lies strictly inside the open interval
`(old.StartsAt, old.EndsAt)` or its `StartsAt` lies strictly inside that
interval; otherwise it stores the incoming alert itself, discarding the
old one without merging. -/
theorem put_overlap_merge_policy (merge : Alert → Alert → Alert) (choice : Nat → Bool)
    (s s2 : Alerts) (al old : Alert)
    (hold : lookupFp al.Fingerprint s.alerts = some old)
    (hput : putOne merge choice s al = some s2) :
    (((old.startsAt < al.endsAt ∧ al.endsAt < old.endsAt) ∨
      (old.startsAt < al.startsAt ∧ al.startsAt < old.endsAt)) →
        lookupFp al.Fingerprint s2.alerts = some (merge old al)) ∧
    (¬((old.startsAt < al.endsAt ∧ al.endsAt < old.endsAt) ∨
       (old.startsAt < al.startsAt ∧ al.startsAt < old.endsAt)) →
        lookupFp al.Fingerprint s2.alerts = some al) := by
  have halerts := putOne_alerts merge choice s s2 al hput
  rw [hold] at halerts
  constructor
  · intro h
    have hov : overlaps old al = true := (overlaps_iff old al).mpr h
    rw [halerts]
    simp [resolve, hov, lookupFp_insertFp_self]
  · intro h
    have hov : overlaps old al = false := by
      rcases hb : overlaps old al with _ | _
      · rfl
      · exact absurd ((overlaps_iff old al).mp hb) h
    rw [halerts]
    simp [resolve, hov, lookupFp_insertFp_self]

theorem put_overlap_merge_policy_witness :
    lookupFp alW.Fingerprint s2W.alerts = some (mergeW oldW alW) :=
  (put_overlap_merge_policy mergeW choiceT sW s2W alW oldW (by decide)
    (by decide)).1 (by decide)

/-- Claim C2: when the incoming alert's interval fully contains the stored
alert's interval (`incoming.StartsAt ≤ old.StartsAt` and
`old.EndsAt ≤ incoming.EndsAt`), the overlap test fails and `Put` replaces
the stored alert with the incoming alert without merging, for every
possible merge function. -/
theorem put_containment_no_merge (merge : Alert → Alert → Alert) (choice : Nat → Bool)
    (s s2 : Alerts) (al old : Alert)
    (hold : lookupFp al.Fingerprint s.alerts = some old)
    (hs : al.startsAt ≤ old.startsAt) (he : old.endsAt ≤ al.endsAt)
    (hput : putOne merge choice s al = some s2) :
    lookupFp al.Fingerprint s2.alerts = some al := by
  have halerts := putOne_alerts merge choice s s2 al hput
  rw [hold] at halerts
  have hov : overlaps old al = false := by
    rcases hb : overlaps old al with _ | _
    · rfl
    · rcases (overlaps_iff old al).mp hb with ⟨_, h2⟩ | ⟨h1, _⟩
      · exact absurd h2 (not_lt.mpr he)
      · exact absurd h1 (not_lt.mpr hs)
  rw [halerts]
  simp [resolve, hov, lookupFp_insertFp_self]

theorem put_containment_no_merge_witness :
    lookupFp alBig.Fingerprint s2Big.alerts = some alBig :=
  put_containment_no_merge mergeW choiceT sW s2Big alBig oldW (by decide)
    (by decide) (by decide) (by decide)

/-- Claim C3: for a fingerprint with no entry in the store, `Put` of a
single alert followed by `Get` of its fingerprint returns exactly that
alert, unchanged, for every possible merge function. -/
theorem put_fresh_then_get (merge : Alert → Alert → Alert) (choice : Nat → Bool)
    (s s2 : Alerts) (e : Option GoErr) (al : Alert)
    (hnone : lookupFp al.Fingerprint s.alerts = none)
    (hput : Put merge choice s [al] = some (s2, e)) :
    Get s2 al.Fingerprint = Except.ok al := by
  have hone : putOne merge choice s al = some s2 := by
    unfold Put putList at hput
    rcases hp : putOne merge choice s al with _ | s3
    · rw [hp] at hput; exact absurd hput (by simp)
    · rw [hp] at hput
      simp only [putList, Option.some.injEq, Prod.mk.injEq] at hput
      rw [hput.1]
  have halerts := putOne_alerts merge choice s s2 al hone
  rw [hnone] at halerts
  unfold Get
  rw [halerts]
  simp [resolve, lookupFp_insertFp_self]

theorem put_fresh_then_get_witness : Get s3E alW.Fingerprint = Except.ok alW :=
  put_fresh_then_get mergeW choiceT sE s3E none alW (by decide) (by decide)

/-- Claim C4: `Get` returns the `ErrNotFound` error exactly when no alert
with the given fingerprint is in the store, and returns the stored alert
(with no error) otherwise. -/
theorem get_notfound_iff (s : Alerts) (fp : Nat) :
    (Get s fp = Except.error GoErr.errNotFound ↔ lookupFp fp s.alerts = none) ∧
    (∀ a : Alert, lookupFp fp s.alerts = some a → Get s fp = Except.ok a) := by
  refine ⟨⟨fun h => ?_, fun h => ?_⟩, fun a h => ?_⟩
  · rcases hl : lookupFp fp s.alerts with _ | a
    · rfl
    · unfold Get at h; rw [hl] at h; exact absurd h (by simp)
  · unfold Get; rw [h]
  · unfold Get; rw [h]

theorem get_notfound_iff_witness :
    Get sW 2 = Except.error GoErr.errNotFound ∧ Get sW 1 = Except.ok oldW :=
  ⟨(get_notfound_iff sW 2).1.mpr (by decide),
   (get_notfound_iff sW 1).2 oldW (by decide)⟩

/-- Claim C5: a GC sweep removes exactly the stored alerts whose `EndsAt`
is strictly before the sweep time: a stored alert is gone after the sweep
when expired and still stored unchanged when not, a store miss stays a
miss, and the sweep appends to the marker-delete log a batch containing
each removed fingerprint exactly once and no other fingerprint. -/
theorem gc_sweep_removes_exactly_expired (now : Time) (s : Alerts)
    (hnodup : (s.alerts.map Prod.fst).Nodup) :
    (∀ fp : Nat, ∀ a : Alert, lookupFp fp s.alerts = some a →
       lookupFp fp (gcSweep now s).alerts =
         (if expired now a then none else some a)) ∧
    (∀ fp : Nat, lookupFp fp s.alerts = none →
       lookupFp fp (gcSweep now s).alerts = none) ∧
    (∃ d : List Nat,
       (gcSweep now s).markerDeleted = s.markerDeleted ++ d ∧
       (∀ fp : Nat, ∀ a : Alert, lookupFp fp s.alerts = some a →
          d.count fp = (if expired now a then 1 else 0)) ∧
       (∀ fp : Nat, lookupFp fp s.alerts = none → d.count fp = 0)) := by
  refine ⟨?_, ?_, ⟨(s.alerts.filter (fun p => expired now p.2)).map Prod.fst,
    ?_, ?_, ?_⟩⟩
  · intro fp a h
    have hf := lookupFp_filter (fun x : Alert => !expired now x) fp s.alerts hnodup
    rw [h] at hf
    show lookupFp fp (s.alerts.filter (fun p => !expired now p.2)) = _
    rw [hf]
    rcases he : expired now a with _ | _ <;> simp [he]
  · intro fp h
    have hf := lookupFp_filter (fun x : Alert => !expired now x) fp s.alerts hnodup
    rw [h] at hf
    show lookupFp fp (s.alerts.filter (fun p => !expired now p.2)) = none
    rw [hf]
  · rfl
  · intro fp a h
    have hc := count_filter_keys (fun x : Alert => expired now x) fp s.alerts hnodup
    rw [h] at hc
    simpa using hc
  · intro fp h
    have hc := count_filter_keys (fun x : Alert => expired now x) fp s.alerts hnodup
    rw [h] at hc
    simpa using hc

theorem gc_sweep_removes_exactly_expired_witness :
    lookupFp 1 (gcSweep 5 sGC).alerts = none ∧
    lookupFp 2 (gcSweep 5 sGC).alerts = some aLive ∧
    ∃ d : List Nat, (gcSweep 5 sGC).markerDeleted = sGC.markerDeleted ++ d ∧
      d.count 1 = 1 ∧ d.count 2 = 0 := by
  obtain ⟨h1, h2, d, hd, hsome, hnone⟩ :=
    gc_sweep_removes_exactly_expired 5 sGC (by decide)
  refine ⟨?_, ?_, d, hd, ?_, ?_⟩
  · have := h1 1 aExp (by decide)
    simpa [show expired 5 aExp = true from by decide] using this
  · have := h1 2 aLive (by decide)
    simpa [show expired 5 aLive = false from by decide] using this
  · have := hsome 1 aExp (by decide)
    simpa [show expired 5 aExp = true from by decide] using this
  · have := hsome 2 aLive (by decide)
    simpa [show expired 5 aLive = false from by decide] using this

/-- Claim C6 counterexample: a listener that has already signalled
cancellation (`done` closed) can still receive an alert from a later
`Put`: when its queue has free capacity, both cases of the broadcast
select are ready and Go may pick the send, so the claim that no alert
from a Put issued after the cancellation signal is delivered to the queue
is false.  Concretely, with the cancelled listener `lDone` registered,
`Put` of `alW` ends with `alW` sitting in `lDone`'s queue. -/
theorem cancelled_listener_still_receives :
    lDone.done = true ∧
    Put mergeW choiceT sL [alW] =
      some ({ sL with
                alerts := [(1, alW)],
                listeners := [(0, { lDone with queue := [alW] })] }, none) := by
  exact ⟨rfl, by decide⟩

/-- Claim C6 (amended): after a subscriber has signalled cancellation, the
next GC sweep removes its listener from the registry and closes its queue
(logging the close), and a `Put` performed after that sweep can no longer
deliver anything to it — the listener id is gone from the registry both
after the sweep and after the subsequent `Put`.  Before that sweep a `Put`
may still deliver to the queue (see the counterexample). -/
theorem cancelled_listener_reclaimed (now : Time) (s : Alerts) (i : Nat) (l : Listener)
    (merge : Alert → Alert → Alert) (choice : Nat → Bool) (al : Alert) (s2 : Alerts)
    (hnodup : (s.listeners.map Prod.fst).Nodup)
    (hmem : (i, l) ∈ s.listeners) (hdone : l.done = true)
    (hput : putOne merge choice (gcSweep now s) al = some s2) :
    lookupFp i (gcSweep now s).listeners = none ∧
    (i, l.queue) ∈ (gcSweep now s).closedQueues ∧
    lookupFp i s2.listeners = none := by
  have hlook : lookupFp i s.listeners = some l :=
    lookupFp_of_mem_nodup i l s.listeners hmem hnodup
  have hnone : lookupFp i (gcSweep now s).listeners = none := by
    have hf := lookupFp_filter (fun x : Listener => !x.done) i s.listeners hnodup
    rw [hlook] at hf
    show lookupFp i (s.listeners.filter (fun p => !p.2.done)) = none
    rw [hf]
    simp [hdone]
  refine ⟨hnone, ?_, ?_⟩
  · show (i, l.queue) ∈
      s.closedQueues ++
        (s.listeners.filter (fun p => p.2.done)).map (fun p => (p.1, p.2.queue))
    apply List.mem_append_right
    exact List.mem_map.mpr ⟨(i, l), List.mem_filter.mpr ⟨hmem, hdone⟩, rfl⟩
  · rw [lookupFp_eq_none] at hnone ⊢
    rw [putOne_listener_keys merge choice (gcSweep now s) s2 al hput]
    exact hnone

theorem cancelled_listener_reclaimed_witness :
    lookupFp 0 (gcSweep 0 sL).listeners = none ∧
    (0, lDone.queue) ∈ (gcSweep 0 sL).closedQueues ∧
    lookupFp 0 sLPut.listeners = none :=
  cancelled_listener_reclaimed 0 sL 0 lDone mergeW choiceT alW sLPut
    (by decide) (by decide) rfl (by decide)

/-- Claim C7: `Subscribe` registers a listener whose queue holds exactly
the snapshot of pending alerts and whose channel capacity is the maximum
of the snapshot size and the default capacity 200, so the preloaded
snapshot always fits in the queue (the preload cannot block). -/
theorem subscribe_queue_capacity (s : Alerts) :
    ∃ l : Listener,
      (s.next, l) ∈ (Subscribe s).1.listeners ∧
      l.queue = (getPending s).1 ∧
      l.cap = max (getPending s).1.length alertChannelLength ∧
      l.cap = Nat.max (getPending s).1.length 200 ∧
      l.queue.length ≤ l.cap := by
  refine ⟨{ queue := (getPending s).1,
            cap := max (getPending s).1.length alertChannelLength,
            done := false }, ?_, rfl, rfl, ?_, ?_⟩
  · unfold Subscribe
    simp
  · simp only [max, alertChannelLength, gt_iff_lt, Nat.max_def]
    split <;> split <;> omega
  · simp only [max, alertChannelLength, gt_iff_lt]
    split <;> omega

/-- Claim C8: whenever `Put` returns (for any batch, store state, merge
function and select choices), the returned error is `nil`. -/
theorem put_returns_nil_error (merge : Alert → Alert → Alert) (choice : Nat → Bool)
    (s : Alerts) (als : List Alert) (r : Alerts × Option GoErr)
    (h : Put merge choice s als = some r) : r.2 = none := by
  unfold Put at h
  rcases hl : putList merge choice s als with _ | s2
  · rw [hl] at h; exact absurd h (by simp)
  · rw [hl] at h
    simp only [Option.some.injEq] at h
    rw [← h]

theorem put_returns_nil_error_witness : ((s3E, (none : Option GoErr))).2 = none :=
  put_returns_nil_error mergeW choiceT sE [alW] (s3E, none) (by decide)

/-- Claim C9: a first `Close` on a store whose `stopGC` channel is still
open returns normally with a `nil` error and stops the GC loop (the next
loop iteration returns instead of sweeping); a second `Close` on the
resulting state panics (Go's `close` of an already-closed channel), a
fatal failure rather than a tolerated no-op. -/
theorem close_contract (s : Alerts) (h : s.stopGCClosed = false) :
    Close s = CloseOutcome.ok { s with stopGCClosed := true } none ∧
    (∀ now : Time, gcStep now { s with stopGCClosed := true } = none) ∧
    Close { s with stopGCClosed := true } = CloseOutcome.panicked := by
  refine ⟨?_, fun now => ?_, ?_⟩
  · unfold Close; rw [h]; simp
  · unfold gcStep; simp
  · unfold Close; simp

theorem close_contract_witness :
    Close sE = CloseOutcome.ok { sE with stopGCClosed := true } none ∧
    gcStep 0 { sE with stopGCClosed := true } = none ∧
    Close { sE with stopGCClosed := true } = CloseOutcome.panicked :=
  ⟨(close_contract sE rfl).1, (close_contract sE rfl).2.1 0,
   (close_contract sE rfl).2.2⟩

/-- Claim C10: the internal snapshot always carries a `nil` error, so the
iterators built by `Subscribe` and `GetPending` are constructed with no
startup error, for every store state. -/
theorem snapshot_err_always_nil (s : Alerts) :
    (getPending s).2 = none ∧ (Subscribe s).2.2.err = none ∧
    (GetPending s).err = none :=
  ⟨rfl, rfl, rfl⟩

end Mem
